import Mathlib

/-!
# Verification of PyRTL's memory subsystem (`pyrtl/memory.py`)

A shallow embedding of `MemBlock` / `RomBlock` and their supporting value
types (`_MemIndexed`, `_MemAssignment`, `EnabledWrite`), together with
theorems settling the specification claims about them.

The source file `pyrtl/memory.py` relies on external collaborators that are
not part of the analysed source tree (`core`, `wire`, `helperfuncs`,
`conditional`).  Where the behaviour of such a collaborator is needed, it is
modelled from the specification; each such definition carries a doc comment
starting with `Modelled from the spec:`.  Everything else is translated
directly from `pyrtl/memory.py`.
-/

set_option autoImplicit false

namespace PyRTL

/-- Modelled from the spec: a bit-vector signal (`wire.WireVector` /
`wire.Const`, not under the analysed sources).  Per the spec a signal is "a
bit-vector value with a fixed width and stable identity in the netlist"; we
model identity by a numeric id for ordinary wire vectors and by the carried
value for constants.  `Wire.const v w` embeds `wire.Const(v, bitwidth=w)`. -/
inductive Wire where
  | wv (id : Nat) (bitwidth : Nat)
  | const (val : Nat) (bitwidth : Nat)
  deriving DecidableEq, Repr

/-- `len(w)` of a signal: its bitwidth. -/
def Wire.width : Wire → Nat
  | .wv _ w => w
  | .const _ w => w

/-- Embeds `core.PyrtlError` / `core.PyrtlInternalError`: the two exception
classes raised by `pyrtl/memory.py`, each carrying its message string. -/
inductive PyrtlException where
  | PyrtlError (msg : String)
  | PyrtlInternalError (msg : String)
  deriving DecidableEq, Repr

/-- Embeds `core.LogicNet` as used by `pyrtl/memory.py`: a netlist node with
an operation tag (`'m'` for read ports, `'@'` for write ports), the
`op_param` pair `(self.id, self)` — the memory back-reference is by
identifier, so we record the id — ordered argument signals and ordered
destination signals. -/
structure LogicNet where
  op : Char
  op_param : Nat
  args : List Wire
  dests : List Wire
  deriving DecidableEq, Repr

/-- Modelled from the spec: the mutable construction context. The netlist
container (`core.Block`, not under the analysed sources) owns the list of
nodes and allocates unique identifiers; `wire.WireVector` allocation and
`core.next_memid` / `core.next_tempvar_name` draw from per-kind counters. -/
structure BuildState where
  nets : List LogicNet
  nextWireId : Nat
  nextMemId : Nat
  nextTmpVar : Nat
  deriving DecidableEq, Repr

/-- Modelled from the spec: `block.add_net(net)` — "the netlist container
... owns the set of nodes"; adding a node appends it. -/
def BuildState.add_net (st : BuildState) (net : LogicNet) : BuildState :=
  { st with nets := st.nets ++ [net] }

/-- Modelled from the spec: `core.next_memid()` allocates "a netlist-unique
identifier" for a memory. -/
def next_memid (st : BuildState) : Nat × BuildState :=
  (st.nextMemId, { st with nextMemId := st.nextMemId + 1 })

/-- Modelled from the spec: `core.next_tempvar_name(name)` "assigns or
generates a unique name": a supplied name is kept, otherwise a fresh
temporary name is generated from a counter. -/
def next_tempvar_name (name : Option String) (st : BuildState) :
    String × BuildState :=
  match name with
  | some n => (n, st)
  | none => ("tmp" ++ toString st.nextTmpVar,
             { st with nextTmpVar := st.nextTmpVar + 1 })

/-- Modelled from the spec: `wire.WireVector(bitwidth=w, block=...)`
allocates a fresh signal of the requested width with a new identity. -/
def freshWire (st : BuildState) (bitwidth : Nat) : Wire × BuildState :=
  (Wire.wv st.nextWireId bitwidth, { st with nextWireId := st.nextWireId + 1 })

/-- Modelled from the spec: the external signal-coercion facility
`helperfuncs.as_wires(value, bitwidth, truncating=False, block)` (not under
the analysed sources).  Per the spec it "coerces ... to a signal of width =
address width via the external coercion facility, without truncation" and
"owns zero/sign-extension semantics": a signal narrower than the target
width is widened to exactly the target width, a signal at least as wide is
returned unchanged (the memory code itself then checks the width and
fails), and no netlist node is built ("builds no node yet"). -/
def as_wires (w : Wire) (bitwidth : Nat) : Wire :=
  if w.width < bitwidth then
    match w with
    | .wv i _ => .wv i bitwidth
    | .const v _ => .const v bitwidth
  else w

/-! ## The memory data model, from `pyrtl/memory.py` -/

/-- Embeds the attributes of `_MemReadBase` (`pyrtl/memory.py`, class at
line 69): bitwidth, addrwidth, name, netlist-unique id, and the list of
read-port nets.  The `self.block` back-reference is represented by the
explicit `BuildState` threading of every operation. -/
structure MemReadBase where
  bitwidth : Nat
  addrwidth : Nat
  name : String
  id : Nat
  readport_nets : List LogicNet
  deriving DecidableEq, Repr

/-- Embeds `MemBlock` (`pyrtl/memory.py` line 121): `_MemReadBase` plus the
write-port list. -/
structure MemBlock extends MemReadBase where
  writeport_nets : List LogicNet
  deriving DecidableEq, Repr

/-- Embeds the data source of a `RomBlock`: in Python `self.data` is either
a function (address → value, which may raise — the raised fault is carried
as a `String` payload), an indexable sequence (modelled as a `List Int`; a
read past its end raises `IndexError`), or a value of some other type, on
which indexing raises `TypeError`. -/
inductive RomData where
  | fn (f : Int → Except String Int)
  | table (t : List Int)
  | nonIndexable

/-- Embeds `RomBlock` (`pyrtl/memory.py` line 178): `_MemReadBase` plus the
fixed data source. -/
structure RomBlock extends MemReadBase where
  data : RomData

/-- Embeds `_MemIndexed` (`pyrtl/memory.py` line 31): the transient handle
pairing a memory with a coerced address signal.  Only the `_MemReadBase`
part of the memory is consulted by the handle's own methods. -/
structure MemIndexed where
  mem : MemReadBase
  index : Wire
  deriving DecidableEq, Repr

/-- Embeds `_MemIndexed.__len__` (`pyrtl/memory.py` line 59):
`return self.mem.bitwidth`.  A pure function: it touches neither the
netlist nor any port list. -/
def MemIndexed.len (m : MemIndexed) : Nat :=
  m.mem.bitwidth

/-- Embeds the right-hand side of a memory assignment: either a plain
value or a `MemBlock.EnabledWrite(data, enable)` named tuple
(`pyrtl/memory.py` line 125). -/
inductive AssignRhs where
  | plain (w : Wire)
  | enabledWrite (data : Wire) (enable : Wire)
  deriving DecidableEq, Repr

/-- Embeds `_MemAssignment` (`pyrtl/memory.py` line 28): the named tuple
`(rhs, is_conditional)` produced by `<<=` / `|=` on a `_MemIndexed`. -/
structure MemAssignment where
  rhs : AssignRhs
  is_conditional : Bool
  deriving DecidableEq, Repr

/-- Embeds `_MemIndexed.__ilshift__` (`pyrtl/memory.py` line 44): `<<=`
captures an unconditional write intent. -/
def MemIndexed.ilshift (rhs : AssignRhs) : MemAssignment :=
  { rhs := rhs, is_conditional := false }

/-- Embeds `_MemIndexed.__ior__` (`pyrtl/memory.py` line 47): `|=` captures
a conditional write intent. -/
def MemIndexed.ior (rhs : AssignRhs) : MemAssignment :=
  { rhs := rhs, is_conditional := true }

/-- The value supplied to a memory's `__setitem__`: either a
`_MemAssignment` produced by the two-phase protocol, or any other Python
value (`other`). -/
inductive SetItemValue where
  | assignment (a : MemAssignment)
  | other
  deriving DecidableEq, Repr

/-! ## Operations of `_MemReadBase` -/

/-- Embeds `_MemReadBase.__init__` (`pyrtl/memory.py` lines 76–90).  The
Python order is kept: the block is resolved and the name generated before
the bitwidth/addrwidth validation; on validation failure the exception
propagates with no memory constructed.  Widths arrive as Python integers
(`Int`), so non-positive inputs are representable. -/
def MemReadBase.init (bitwidth addrwidth : Int) (name : Option String)
    (st : BuildState) : Except PyrtlException MemReadBase × BuildState :=
  let (nm, st) := next_tempvar_name name st
  if bitwidth ≤ 0 then
    (.error (.PyrtlError "error, bitwidth must be >= 1"), st)
  else if addrwidth ≤ 0 then
    (.error (.PyrtlError "error, addrwidth must be >= 1"), st)
  else
    let (mid, st) := next_memid st
    (.ok { bitwidth := bitwidth.toNat, addrwidth := addrwidth.toNat,
           name := nm, id := mid, readport_nets := [] }, st)

/-- Embeds `_MemReadBase.__getitem__` (`pyrtl/memory.py` lines 92–97):
coerce the index to the address width without truncating, fail if the
coerced index is still wider than `addrwidth`, otherwise return the
`_MemIndexed` handle.  No node is built and the state is untouched. -/
def MemReadBase.getitem (mem : MemReadBase) (st : BuildState) (item : Wire) :
    Except PyrtlException MemIndexed × BuildState :=
  let item := as_wires item mem.addrwidth
  if item.width > mem.addrwidth then
    (.error (.PyrtlError "error, memory index bitwidth > addrwidth"), st)
  else
    (.ok { mem := mem, index := item }, st)

/-- Embeds `_MemReadBase._build_read_port` (`pyrtl/memory.py` lines
103–112): allocate a fresh data wire of width `bitwidth`, build the `'m'`
net with argument the address and destination the data wire, add it to the
block and to `readport_nets`, and return the data wire. -/
def MemReadBase._build_read_port (mem : MemReadBase) (st : BuildState)
    (addr : Wire) : Wire × MemReadBase × BuildState :=
  let (data, st) := freshWire st mem.bitwidth
  let readport_net : LogicNet :=
    { op := 'm', op_param := mem.id, args := [addr], dests := [data] }
  let st := st.add_net readport_net
  let mem := { mem with readport_nets := mem.readport_nets ++ [readport_net] }
  (data, mem, st)

/-- Embeds `_MemReadBase._readaccess` (`pyrtl/memory.py` lines 99–101):
delegates to `_build_read_port`. -/
def MemReadBase._readaccess (mem : MemReadBase) (st : BuildState)
    (addr : Wire) : Wire × MemReadBase × BuildState :=
  MemReadBase._build_read_port mem st addr

/-- Embeds `_MemReadBase.__setitem__` (`pyrtl/memory.py` lines 114–115):
unconditionally raises `PyrtlInternalError`, whatever the key and value
are.  The key and value are arbitrary Python objects, so the embedding is
polymorphic in both. -/
def MemReadBase.setitem {κ : Type} {υ : Type} (mem : MemReadBase)
    (st : BuildState) (_key : κ) (_value : υ) :
    Except PyrtlException Unit × MemReadBase × BuildState :=
  (.error (.PyrtlInternalError
    "error, invalid call __setitem__ made on _MemReadBase"), mem, st)

/-! ## Operations of `MemBlock` -/

/-- Embeds `MemBlock.__init__` (`pyrtl/memory.py` lines 129–131): the base
constructor plus an empty `writeport_nets` list. -/
def MemBlock.init (bitwidth addrwidth : Int) (name : Option String)
    (st : BuildState) : Except PyrtlException MemBlock × BuildState :=
  match MemReadBase.init bitwidth addrwidth name st with
  | (.error e, st) => (.error e, st)
  | (.ok base, st) => (.ok { toMemReadBase := base, writeport_nets := [] }, st)

/-- Embeds `MemBlock._build_write_port` (`pyrtl/memory.py` lines 163–170):
build the `'@'` net with arguments `(addr, data, enable)` and no
destinations, add it to the block and to `writeport_nets`. -/
def MemBlock._build_write_port (mem : MemBlock) (st : BuildState)
    (addr data enable : Wire) : MemBlock × BuildState :=
  let writeport_net : LogicNet :=
    { op := '@', op_param := mem.id, args := [addr, data, enable],
      dests := [] }
  let st := st.add_net writeport_net
  let mem := { mem with
    writeport_nets := mem.writeport_nets ++ [writeport_net] }
  (mem, st)

/-- The outcome of `MemBlock._assignment`: `direct` when the write port was
built by the memory itself, `delegated (addr, data, enable)` when the
validated triple was handed to the external conditional-arbitration
component (`conditional.ConditionalUpdate._build_write_port`, not under the
analysed sources), which per the spec "is responsible for eventually
invoking the raw port-builder ... exactly once". -/
inductive CommitOutcome where
  | direct
  | delegated (addr data enable : Wire)
  deriving DecidableEq, Repr

/-- Embeds `MemBlock._assignment` (`pyrtl/memory.py` lines 139–161).  The
Python order is kept: re-coerce the address and check its width; split the
rhs into data/enable, an implicit `Const(1, bitwidth=1)` enable when the
rhs is not an `EnabledWrite`; coerce data to `bitwidth` and enable to width
1 without truncating; check the data width, then the enable width; then
either delegate to the conditional component or build the write port.
Every raise happens before any mutation, so on error the memory and the
state are returned unchanged. -/
def MemBlock._assignment (mem : MemBlock) (st : BuildState) (item : Wire)
    (val : AssignRhs) (is_conditional : Bool) :
    Except PyrtlException CommitOutcome × MemBlock × BuildState :=
  let item := as_wires item mem.addrwidth
  if item.width > mem.addrwidth then
    (.error (.PyrtlError "error, memory index bitwidth > addrwidth"), mem, st)
  else
    let addr := item
    let (data, enable) :=
      match val with
      | .enabledWrite d e => (d, e)
      | .plain v => (v, Wire.const 1 1)
    let data := as_wires data mem.bitwidth
    let enable := as_wires enable 1
    if data.width ≠ mem.bitwidth then
      (.error (.PyrtlError "error, write data larger than memory  bitwidth"),
       mem, st)
    else if enable.width ≠ 1 then
      (.error (.PyrtlError "error, enable signal not exactly 1 bit"), mem, st)
    else if is_conditional then
      (.ok (.delegated addr data enable), mem, st)
    else
      let (mem, st) := MemBlock._build_write_port mem st addr data enable
      (.ok .direct, mem, st)

/-- Embeds `MemBlock.__setitem__` (`pyrtl/memory.py` lines 133–137): a
`_MemAssignment` is committed via `_assignment`; any other value raises
`PyrtlError`. -/
def MemBlock.setitem (mem : MemBlock) (st : BuildState) (item : Wire)
    (value : SetItemValue) :
    Except PyrtlException CommitOutcome × MemBlock × BuildState :=
  match value with
  | .assignment a => MemBlock._assignment mem st item a.rhs a.is_conditional
  | .other =>
    (.error (.PyrtlError
      "error, assigment to memories should use \"<<=\" not \"=\" operator"),
     mem, st)

/-- Embeds `MemBlock._make_copy` (`pyrtl/memory.py` lines 172–175):
construct a fresh `MemBlock` with the same bitwidth, addrwidth and name in
the target block. -/
def MemBlock._make_copy (mem : MemBlock) (st : BuildState) :
    Except PyrtlException MemBlock × BuildState :=
  MemBlock.init (mem.bitwidth : Int) (mem.addrwidth : Int) (some mem.name) st

/-! ## Operations of `RomBlock` -/

/-- Embeds `RomBlock.__init__` (`pyrtl/memory.py` lines 185–193): the base
constructor plus the fixed data source. -/
def RomBlock.init (bitwidth addrwidth : Int) (data : RomData)
    (name : Option String) (st : BuildState) :
    Except PyrtlException RomBlock × BuildState :=
  match MemReadBase.init bitwidth addrwidth name st with
  | (.error e, st) => (.error e, st)
  | (.ok base, st) => (.ok { toMemReadBase := base, data := data }, st)

/-- Embeds `RomBlock._get_read_data` (`pyrtl/memory.py` lines 195–216).
The Python order is kept: range-check the address against
`[0, 2^addrwidth − 1]`; dispatch on the kind of the data source, catching a
fault from a data function (`except Exception`), an `IndexError` from a
too-short sequence and a `TypeError` from a non-indexable source; finally
range-check the value against `[0, 2^bitwidth − 1]`. -/
def RomBlock._get_read_data (rom : RomBlock) (address : Int) :
    Except PyrtlException Int :=
  if address < 0 ∨ address > 2 ^ rom.addrwidth - 1 then
    .error (.PyrtlError
      ("Error: Invalid address, " ++ toString address ++ " specified"))
  else
    let valueRes : Except PyrtlException Int :=
      match rom.data with
      | .fn f =>
        match f address with
        | .ok v => .ok v
        | .error _ => .error (.PyrtlError "Invalid data function for RomBlock")
      | .table t =>
        if h : address.toNat < t.length then .ok (t.get ⟨address.toNat, h⟩)
        else
          .error (.PyrtlError ("An access to rom " ++ rom.name ++ " index "
            ++ toString address ++ " is out of range"))
      | .nonIndexable =>
        .error (.PyrtlError "invalid type for RomBlock data object")
    match valueRes with
    | .error e => .error e
    | .ok value =>
      if value < 0 ∨ value ≥ 2 ^ rom.bitwidth then
        .error (.PyrtlError "invalid value for RomBlock data")
      else
        .ok value

/-- Embeds `RomBlock._make_copy` (`pyrtl/memory.py` lines 218–220):
construct a fresh `RomBlock` with the same bitwidth, addrwidth, data and
name in the target block. -/
def RomBlock._make_copy (rom : RomBlock) (st : BuildState) :
    Except PyrtlException RomBlock × BuildState :=
  RomBlock.init (rom.bitwidth : Int) (rom.addrwidth : Int) rom.data
    (some rom.name) st

/-- Inherited `__setitem__` of `RomBlock`: Python method resolution finds
`_MemReadBase.__setitem__` (`pyrtl/memory.py` lines 114–115), so every
write attempt on a ROM raises the same `PyrtlInternalError`. -/
def RomBlock.setitem {κ : Type} {υ : Type} (rom : RomBlock)
    (st : BuildState) (key : κ) (value : υ) :
    Except PyrtlException Unit × RomBlock × BuildState :=
  match MemReadBase.setitem rom.toMemReadBase st key value with
  | (r, base, st) => (r, { rom with toMemReadBase := base }, st)

/-! ## The spec's error taxonomy, mapped to the code's exceptions

The specification names abstract error classes (section 7); the code raises
`PyrtlError` / `PyrtlInternalError` with fixed message strings.  Each
classifier below recognises exactly the raise sites the spec assigns to the
corresponding class. -/

/-- `ConfigurationError`: bad bitwidth / addrwidth at construction
(`pyrtl/memory.py` lines 81–84). -/
def isConfigurationError : PyrtlException → Prop
  | .PyrtlError m =>
    m = "error, bitwidth must be >= 1" ∨ m = "error, addrwidth must be >= 1"
  | _ => False

/-- `AddressWidthError`: address wider than addrwidth
(`pyrtl/memory.py` lines 95–96 and 142–143). -/
def isAddressWidthError : PyrtlException → Prop
  | .PyrtlError m => m = "error, memory index bitwidth > addrwidth"
  | _ => False

/-- `DataWidthError`: post-coercion data width mismatch on write
(`pyrtl/memory.py` lines 153–154). -/
def isDataWidthError : PyrtlException → Prop
  | .PyrtlError m => m = "error, write data larger than memory  bitwidth"
  | _ => False

/-- `EnableWidthError`: post-coercion enable width mismatch on write
(`pyrtl/memory.py` lines 155–156). -/
def isEnableWidthError : PyrtlException → Prop
  | .PyrtlError m => m = "error, enable signal not exactly 1 bit"
  | _ => False

/-- `ProtocolError`: write to a read-only memory
(`pyrtl/memory.py` lines 114–115) or a plain assignment bypassing the
two-phase protocol (lines 136–137). -/
def isProtocolError : PyrtlException → Prop
  | .PyrtlError m =>
    m = "error, assigment to memories should use \"<<=\" not \"=\" operator"
  | .PyrtlInternalError m =>
    m = "error, invalid call __setitem__ made on _MemReadBase"

/-- `AddressOutOfRange`: a ROM address outside `[0, 2^addrwidth − 1]`
(`pyrtl/memory.py` lines 197–198) or a sequence index past the end of the
table (lines 209–211); both messages embed the offending address (and, for
the second, the memory name). -/
def isAddressOutOfRange : PyrtlException → Prop
  | .PyrtlError m =>
    (∃ a : Int, m = "Error: Invalid address, " ++ toString a ++ " specified")
    ∨ (∃ (nm : String) (a : Int),
        m = "An access to rom " ++ nm ++ " index " ++ toString a
          ++ " is out of range")
  | _ => False

/-- `ValueOutOfRange`: a resolved ROM value outside `[0, 2^bitwidth − 1]`
(`pyrtl/memory.py` lines 213–214). -/
def isValueOutOfRange : PyrtlException → Prop
  | .PyrtlError m => m = "invalid value for RomBlock data"
  | _ => False

/-- `InvalidSourceType`: a ROM data source that is neither callable nor
indexable (`pyrtl/memory.py` lines 207–208). -/
def isInvalidSourceType : PyrtlException → Prop
  | .PyrtlError m => m = "invalid type for RomBlock data object"
  | _ => False

/-- `ResolutionError`: a fault raised inside a ROM data function, caught
and re-reported (`pyrtl/memory.py` lines 202–203). -/
def isResolutionError : PyrtlException → Prop
  | .PyrtlError m => m = "Invalid data function for RomBlock"
  | _ => False

/-- Modelled from the spec: using an `IndexedAccess` handle as a value
triggers "read materialization" (in PyRTL, `helperfuncs.as_wires` applied
to a `_MemIndexed`, not under the analysed sources): it invokes the
memory's `_readaccess` with the stored index signal. -/
def MemIndexed.materialize (mi : MemIndexed) (st : BuildState) :
    Wire × MemReadBase × BuildState :=
  MemReadBase._readaccess mi.mem st mi.index

/-! ## Theorems settling the specification claims -/

/-- C7: every write attempt on the shared read-only memory base — and on a
read-only table, whose `__setitem__` is inherited from the base — fails
with a `ProtocolError`, for every key and every value, leaving the memory
and the netlist state unchanged. -/
theorem readonly_write_always_protocol_error {κ υ : Type}
    (mem : MemReadBase) (rom : RomBlock) (st : BuildState)
    (key : κ) (value : υ) :
    (∃ e, (MemReadBase.setitem mem st key value).1 = .error e
        ∧ isProtocolError e) ∧
    (MemReadBase.setitem mem st key value).2.1 = mem ∧
    (MemReadBase.setitem mem st key value).2.2 = st ∧
    (∃ e, (RomBlock.setitem rom st key value).1 = .error e
        ∧ isProtocolError e) ∧
    (RomBlock.setitem rom st key value).2.1 = rom ∧
    (RomBlock.setitem rom st key value).2.2 = st := by
  refine ⟨⟨_, rfl, by simp [isProtocolError]⟩, rfl, rfl,
          ⟨_, rfl, by simp [isProtocolError, RomBlock.setitem,
            MemReadBase.setitem]⟩, rfl, rfl⟩

/-- C3: memory construction (RAM and read-only table alike) succeeds
whenever bitwidth and addrwidth are both at least 1, and fails with a
`ConfigurationError` whenever either is non-positive. -/
theorem construction_validates_widths (bw aw : Int) (name : Option String)
    (d : RomData) (st : BuildState) :
    (1 ≤ bw → 1 ≤ aw →
      (∃ m, (MemBlock.init bw aw name st).1 = .ok m) ∧
      (∃ r, (RomBlock.init bw aw d name st).1 = .ok r)) ∧
    ((bw ≤ 0 ∨ aw ≤ 0) →
      (∃ e, (MemBlock.init bw aw name st).1 = .error e
          ∧ isConfigurationError e) ∧
      (∃ e, (RomBlock.init bw aw d name st).1 = .error e
          ∧ isConfigurationError e)) := by
  constructor
  · intro h1 h2
    have hb : ¬ bw ≤ 0 := by omega
    have ha : ¬ aw ≤ 0 := by omega
    cases name <;>
      simp [MemBlock.init, RomBlock.init, MemReadBase.init,
        next_tempvar_name, next_memid, hb, ha]
  · intro h
    by_cases hb : bw ≤ 0
    · cases name <;>
        simp [MemBlock.init, RomBlock.init, MemReadBase.init,
          next_tempvar_name, next_memid, hb, isConfigurationError]
    · have ha : aw ≤ 0 := by omega
      cases name <;>
        simp [MemBlock.init, RomBlock.init, MemReadBase.init,
          next_tempvar_name, next_memid, hb, ha, isConfigurationError]

/-- Witness for `construction_validates_widths` at bitwidth 8 / addrwidth 4
(success) and bitwidth 0 / addrwidth 4 (failure). -/
theorem construction_validates_widths_witness :
    ((∃ m, (MemBlock.init 8 4 none ⟨[], 0, 0, 0⟩).1 = .ok m) ∧
     (∃ r, (RomBlock.init 8 4 (.table []) none ⟨[], 0, 0, 0⟩).1 = .ok r)) ∧
    ((∃ e, (MemBlock.init 0 4 none ⟨[], 0, 0, 0⟩).1 = .error e
        ∧ isConfigurationError e) ∧
     (∃ e, (RomBlock.init 0 4 (.table []) none ⟨[], 0, 0, 0⟩).1 = .error e
        ∧ isConfigurationError e)) := by
  exact ⟨(construction_validates_widths 8 4 none (.table []) ⟨[], 0, 0, 0⟩).1
           (by norm_num) (by norm_num),
         (construction_validates_widths 0 4 none (.table []) ⟨[], 0, 0, 0⟩).2
           (Or.inl (by norm_num))⟩

/-- Characterization of `RomBlock._get_read_data` on a table-backed ROM. -/
theorem get_read_data_table_eq (rom : RomBlock) (t : List Int)
    (hdata : rom.data = .table t) (address : Int) :
    RomBlock._get_read_data rom address =
      if address < 0 ∨ address > 2 ^ rom.addrwidth - 1 then
        .error (.PyrtlError
          ("Error: Invalid address, " ++ toString address ++ " specified"))
      else if h : address.toNat < t.length then
        (if t.get ⟨address.toNat, h⟩ < 0
            ∨ t.get ⟨address.toNat, h⟩ ≥ 2 ^ rom.bitwidth then
          .error (.PyrtlError "invalid value for RomBlock data")
        else .ok (t.get ⟨address.toNat, h⟩))
      else
        .error (.PyrtlError ("An access to rom " ++ rom.name ++ " index "
          ++ toString address ++ " is out of range")) := by
  simp only [RomBlock._get_read_data, hdata]
  split
  · rfl
  · by_cases h : address.toNat < t.length
    · simp only [dif_pos h]
    · simp only [dif_neg h]

/-- Characterization of `RomBlock._get_read_data` on a generator-backed
ROM. -/
theorem get_read_data_fn_eq (rom : RomBlock) (f : Int → Except String Int)
    (hdata : rom.data = .fn f) (address : Int) :
    RomBlock._get_read_data rom address =
      if address < 0 ∨ address > 2 ^ rom.addrwidth - 1 then
        .error (.PyrtlError
          ("Error: Invalid address, " ++ toString address ++ " specified"))
      else
        match f address with
        | .error _ => .error (.PyrtlError "Invalid data function for RomBlock")
        | .ok v =>
          if v < 0 ∨ v ≥ 2 ^ rom.bitwidth then
            .error (.PyrtlError "invalid value for RomBlock data")
          else .ok v := by
  simp only [RomBlock._get_read_data, hdata]
  split
  · rfl
  · cases f address <;> rfl

/-- C2: on a ROM with addrwidth 4 backed by a fixed 16-entry table,
`_get_read_data k` returns the table entry for every `k` in `[0, 15]`
whose entry lies in `[0, 2^bitwidth − 1]`, fails with `ValueOutOfRange`
when the entry falls outside that range, and fails with
`AddressOutOfRange` for every address outside `[0, 15]` (in particular
for 16). -/
theorem rom_table16_resolve (rom : RomBlock) (t : List Int)
    (haw : rom.addrwidth = 4) (hdata : rom.data = .table t)
    (hlen : t.length = 16) :
    (∀ (k v : Int), 0 ≤ k → k ≤ 15 → t.get? k.toNat = some v →
      (0 ≤ v → v < 2 ^ rom.bitwidth →
        RomBlock._get_read_data rom k = .ok v) ∧
      ((v < 0 ∨ 2 ^ rom.bitwidth ≤ v) →
        ∃ e, RomBlock._get_read_data rom k = .error e
           ∧ isValueOutOfRange e)) ∧
    (∀ a : Int, (a < 0 ∨ 15 < a) →
      ∃ e, RomBlock._get_read_data rom a = .error e
         ∧ isAddressOutOfRange e) := by
  have hpow : (2 : Int) ^ rom.addrwidth - 1 = 15 := by rw [haw]; norm_num
  constructor
  · intro k v hk0 hk hv
    have hguard : ¬ (k < 0 ∨ k > (2 : Int) ^ rom.addrwidth - 1) := by
      rw [hpow]; omega
    have hlt : k.toNat < t.length := by rw [hlen]; omega
    obtain ⟨h', hget⟩ := List.get?_eq_some.mp hv
    constructor
    · intro hv0 hvlt
      rw [get_read_data_table_eq rom t hdata k, if_neg hguard, dif_pos hlt,
        hget, if_neg (by omega)]
    · intro hvbad
      refine ⟨.PyrtlError "invalid value for RomBlock data", ?_, rfl⟩
      rw [get_read_data_table_eq rom t hdata k, if_neg hguard,
        dif_pos hlt, hget, if_pos (by omega)]
  · intro a ha
    refine ⟨.PyrtlError
      ("Error: Invalid address, " ++ toString a ++ " specified"), ?_,
      Or.inl ⟨a, rfl⟩⟩
    rw [get_read_data_table_eq rom t hdata a, if_pos (by rw [hpow]; omega)]

/-- Witness for `rom_table16_resolve`: a concrete 16-entry table with
bitwidth 8; entry 2 resolves to its value 4, entry 15 (value 300 ≥ 2^8)
fails `ValueOutOfRange`, and address 16 fails `AddressOutOfRange`. -/
theorem rom_table16_resolve_witness :
    (RomBlock._get_read_data
        ⟨⟨8, 4, "r", 0, []⟩,
         .table [3, 1, 4, 1, 5, 9, 2, 6, 5, 3, 5, 8, 9, 7, 9, 300]⟩ 2
      = .ok 4) ∧
    (∃ e, RomBlock._get_read_data
        ⟨⟨8, 4, "r", 0, []⟩,
         .table [3, 1, 4, 1, 5, 9, 2, 6, 5, 3, 5, 8, 9, 7, 9, 300]⟩ 15
      = .error e ∧ isValueOutOfRange e) ∧
    (∃ e, RomBlock._get_read_data
        ⟨⟨8, 4, "r", 0, []⟩,
         .table [3, 1, 4, 1, 5, 9, 2, 6, 5, 3, 5, 8, 9, 7, 9, 300]⟩ 16
      = .error e ∧ isAddressOutOfRange e) := by
  refine ⟨?_, ?_, ?_⟩
  · exact ((rom_table16_resolve
      ⟨⟨8, 4, "r", 0, []⟩,
       .table [3, 1, 4, 1, 5, 9, 2, 6, 5, 3, 5, 8, 9, 7, 9, 300]⟩
      [3, 1, 4, 1, 5, 9, 2, 6, 5, 3, 5, 8, 9, 7, 9, 300]
      rfl rfl rfl).1 2 4 (by norm_num)
      (by norm_num) rfl).1 (by norm_num) (by norm_num)
  · exact ((rom_table16_resolve
      ⟨⟨8, 4, "r", 0, []⟩,
       .table [3, 1, 4, 1, 5, 9, 2, 6, 5, 3, 5, 8, 9, 7, 9, 300]⟩
      [3, 1, 4, 1, 5, 9, 2, 6, 5, 3, 5, 8, 9, 7, 9, 300]
      rfl rfl rfl).1 15 300 (by norm_num)
      (by norm_num) rfl).2 (Or.inr (by norm_num))
  · exact (rom_table16_resolve
      ⟨⟨8, 4, "r", 0, []⟩,
       .table [3, 1, 4, 1, 5, 9, 2, 6, 5, 3, 5, 8, 9, 7, 9, 300]⟩
      [3, 1, 4, 1, 5, 9, 2, 6, 5, 3, 5, 8, 9, 7, 9, 300]
      rfl rfl rfl).2 16 (Or.inr (by norm_num))

/-- C5: on a generator-backed ROM, `_get_read_data k` for an in-range
address returns `f(k)` whenever the generator returns an in-range value;
and whenever the generator raises — whatever the fault `s` is — the
resolution fails with the fixed `ResolutionError`, so the raw fault is
never propagated. -/
theorem rom_generator_resolve (rom : RomBlock) (f : Int → Except String Int)
    (hdata : rom.data = .fn f) (k : Int) (hk0 : 0 ≤ k)
    (hk : k ≤ 2 ^ rom.addrwidth - 1) :
    (∀ v : Int, f k = .ok v → 0 ≤ v → v < 2 ^ rom.bitwidth →
      RomBlock._get_read_data rom k = .ok v) ∧
    (∀ s : String, f k = .error s →
      RomBlock._get_read_data rom k =
        .error (.PyrtlError "Invalid data function for RomBlock") ∧
      isResolutionError
        (.PyrtlError "Invalid data function for RomBlock")) := by
  have hguard : ¬ (k < 0 ∨ k > (2 : Int) ^ rom.addrwidth - 1) := by omega
  constructor
  · intro v hok hv0 hvlt
    rw [get_read_data_fn_eq rom f hdata k, if_neg hguard, hok]
    exact if_neg (by omega)
  · intro s herr
    refine ⟨?_, rfl⟩
    rw [get_read_data_fn_eq rom f hdata k, if_neg hguard, herr]

/-- Witness for `rom_generator_resolve`: a generator returning 5 at
address 0 and raising everywhere else; address 0 resolves to 5 and
address 1 fails with the fixed `ResolutionError`. -/
theorem rom_generator_resolve_witness :
    (RomBlock._get_read_data
        ⟨⟨8, 4, "r", 0, []⟩,
         .fn (fun a => if a = 0 then .ok 5 else .error "boom")⟩ 0
      = .ok 5) ∧
    (RomBlock._get_read_data
        ⟨⟨8, 4, "r", 0, []⟩,
         .fn (fun a => if a = 0 then .ok 5 else .error "boom")⟩ 1
      = .error (.PyrtlError "Invalid data function for RomBlock")) := by
  constructor
  · exact (rom_generator_resolve _ (fun a => if a = 0 then .ok 5
        else .error "boom") rfl 0 (by norm_num) (by norm_num)).1 5
      (by norm_num) (by norm_num) (by norm_num)
  · exact ((rom_generator_resolve _ (fun a => if a = 0 then .ok 5
        else .error "boom") rfl 1 (by norm_num) (by norm_num)).2 "boom"
      (by norm_num)).1

/-- C1: committing the unconditional write `mem[a] <<= d`, with `d`
coercing to exactly the memory's bitwidth and `a` a valid address, adds
exactly one write-port node to the memory's write-port list and to the
netlist; its arguments are (address, data, enable) with the enable being
the constant-1 signal of width 1, and it has no destination signal. -/
theorem unconditional_write_one_port (mem : MemBlock) (st : BuildState)
    (a d : Wire)
    (ha : (as_wires a mem.addrwidth).width ≤ mem.addrwidth)
    (hd : (as_wires d mem.bitwidth).width = mem.bitwidth) :
    ∃ w : LogicNet,
      MemBlock.setitem mem st a
          (.assignment (MemIndexed.ilshift (.plain d)))
        = (.ok .direct,
           { mem with writeport_nets := mem.writeport_nets ++ [w] },
           { st with nets := st.nets ++ [w] }) ∧
      w = { op := '@', op_param := mem.id,
            args := [as_wires a mem.addrwidth, as_wires d mem.bitwidth,
                     Wire.const 1 1],
            dests := [] } ∧
      (Wire.const 1 1).width = 1 := by
  have h1 : ¬ (as_wires a mem.addrwidth).width > mem.addrwidth := by omega
  have h3 : ¬ ((as_wires (Wire.const 1 1) 1).width ≠ 1) := by decide
  refine ⟨_, ?_, rfl, rfl⟩
  simp only [MemBlock.setitem, MemIndexed.ilshift, MemBlock._assignment,
    MemBlock._build_write_port, BuildState.add_net]
  rw [if_neg h1, if_neg (fun hne => hne hd), if_neg h3,
    if_neg (by decide : ¬ (false = true))]
  exact rfl

/-- Witness for `unconditional_write_one_port`: a concrete 8×16 RAM, a
width-4 address and a width-8 data wire. -/
theorem unconditional_write_one_port_witness :
    ∃ w : LogicNet,
      MemBlock.setitem ⟨⟨8, 4, "m", 7, []⟩, []⟩ ⟨[], 0, 0, 0⟩ (.wv 3 4)
          (.assignment (MemIndexed.ilshift (.plain (.wv 5 8))))
        = (.ok .direct,
           { (⟨⟨8, 4, "m", 7, []⟩, []⟩ : MemBlock) with
               writeport_nets := [] ++ [w] },
           { (⟨[], 0, 0, 0⟩ : BuildState) with nets := [] ++ [w] }) ∧
      w = { op := '@', op_param := 7,
            args := [as_wires (.wv 3 4) 4, as_wires (.wv 5 8) 8,
                     Wire.const 1 1],
            dests := [] } ∧
      (Wire.const 1 1).width = 1 :=
  unconditional_write_one_port ⟨⟨8, 4, "m", 7, []⟩, []⟩ ⟨[], 0, 0, 0⟩
    (.wv 3 4) (.wv 5 8) (by decide) (by decide)

/-- C4: committing `mem[a] <<= EnabledWrite(d, e)` with a well-formed
address and data but an enable whose coerced width is not 1 fails with
`EnableWidthError`, and both the memory (its write-port and read-port
lists) and the netlist state are returned unchanged. -/
theorem enabled_write_bad_enable_fails (mem : MemBlock) (st : BuildState)
    (a d e : Wire)
    (ha : (as_wires a mem.addrwidth).width ≤ mem.addrwidth)
    (hd : (as_wires d mem.bitwidth).width = mem.bitwidth)
    (he : (as_wires e 1).width ≠ 1) :
    MemBlock.setitem mem st a
        (.assignment (MemIndexed.ilshift (.enabledWrite d e)))
      = (.error (.PyrtlError "error, enable signal not exactly 1 bit"),
         mem, st) ∧
    isEnableWidthError
      (.PyrtlError "error, enable signal not exactly 1 bit") := by
  have h1 : ¬ (as_wires a mem.addrwidth).width > mem.addrwidth := by omega
  refine ⟨?_, rfl⟩
  simp only [MemBlock.setitem, MemIndexed.ilshift, MemBlock._assignment]
  rw [if_neg h1, if_neg (fun hne => hne hd), if_pos he]

/-- Witness for `enabled_write_bad_enable_fails`: a width-2 enable on a
concrete 8×16 RAM. -/
theorem enabled_write_bad_enable_fails_witness :
    MemBlock.setitem ⟨⟨8, 4, "m", 7, []⟩, []⟩ ⟨[], 0, 0, 0⟩ (.wv 3 4)
        (.assignment (MemIndexed.ilshift (.enabledWrite (.wv 5 8) (.wv 6 2))))
      = (.error (.PyrtlError "error, enable signal not exactly 1 bit"),
         ⟨⟨8, 4, "m", 7, []⟩, []⟩, ⟨[], 0, 0, 0⟩) ∧
    isEnableWidthError
      (.PyrtlError "error, enable signal not exactly 1 bit") :=
  enabled_write_bad_enable_fails ⟨⟨8, 4, "m", 7, []⟩, []⟩ ⟨[], 0, 0, 0⟩
    (.wv 3 4) (.wv 5 8) (.wv 6 2) (by decide) (by decide) (by decide)

/-- C6: an address whose coerced width exceeds the memory's address width
makes indexing (for read) fail with `AddressWidthError`, returning the
state untouched (no node is built), and makes a write commit — for every
right-hand side and both the conditional and the unconditional path —
fail the same way, with the memory's port lists and the netlist
unchanged. -/
theorem wide_address_fails (mb : MemReadBase) (mem : MemBlock)
    (st : BuildState) (a b : Wire)
    (hra : (as_wires a mb.addrwidth).width > mb.addrwidth)
    (hwa : (as_wires b mem.addrwidth).width > mem.addrwidth) :
    MemReadBase.getitem mb st a =
      (.error (.PyrtlError "error, memory index bitwidth > addrwidth"),
       st) ∧
    (∀ (val : AssignRhs) (c : Bool),
      MemBlock._assignment mem st b val c =
        (.error (.PyrtlError "error, memory index bitwidth > addrwidth"),
         mem, st)) ∧
    isAddressWidthError
      (.PyrtlError "error, memory index bitwidth > addrwidth") := by
  refine ⟨?_, fun val c => ?_, rfl⟩
  · simp only [MemReadBase.getitem]
    rw [if_pos hra]
  · simp only [MemBlock._assignment]
    rw [if_pos hwa]

/-- Witness for `wide_address_fails`: a width-5 address on 8×16
memories. -/
theorem wide_address_fails_witness :
    MemReadBase.getitem ⟨8, 4, "m", 7, []⟩ ⟨[], 0, 0, 0⟩ (.wv 3 5) =
      (.error (.PyrtlError "error, memory index bitwidth > addrwidth"),
       ⟨[], 0, 0, 0⟩) ∧
    (∀ (val : AssignRhs) (c : Bool),
      MemBlock._assignment ⟨⟨8, 4, "m", 7, []⟩, []⟩ ⟨[], 0, 0, 0⟩ (.wv 3 5)
          val c =
        (.error (.PyrtlError "error, memory index bitwidth > addrwidth"),
         ⟨⟨8, 4, "m", 7, []⟩, []⟩, ⟨[], 0, 0, 0⟩)) ∧
    isAddressWidthError
      (.PyrtlError "error, memory index bitwidth > addrwidth") :=
  wide_address_fails ⟨8, 4, "m", 7, []⟩ ⟨⟨8, 4, "m", 7, []⟩, []⟩
    ⟨[], 0, 0, 0⟩ (.wv 3 5) (.wv 3 5) (by decide) (by decide)

/-- C10: taking the length of the indexed-access handle `mem[addr]`
returns the memory's bitwidth while materializing no read-port node: the
handle is produced with the netlist state returned unchanged and with the
memory's read-port list untouched. -/
theorem len_of_indexed_handle (mem : MemReadBase) (st : BuildState)
    (a : Wire) (ha : (as_wires a mem.addrwidth).width ≤ mem.addrwidth) :
    ∃ mi : MemIndexed,
      MemReadBase.getitem mem st a = (.ok mi, st) ∧
      MemIndexed.len mi = mem.bitwidth ∧
      mi.mem.readport_nets = mem.readport_nets := by
  refine ⟨⟨mem, as_wires a mem.addrwidth⟩, ?_, rfl, rfl⟩
  simp only [MemReadBase.getitem]
  rw [if_neg (by omega)]

/-- Witness for `len_of_indexed_handle`: a concrete 8×16 memory and a
width-4 address. -/
theorem len_of_indexed_handle_witness :
    ∃ mi : MemIndexed,
      MemReadBase.getitem ⟨8, 4, "m", 7, []⟩ ⟨[], 0, 0, 0⟩ (.wv 3 4)
        = (.ok mi, ⟨[], 0, 0, 0⟩) ∧
      MemIndexed.len mi = 8 ∧
      mi.mem.readport_nets = [] :=
  len_of_indexed_handle ⟨8, 4, "m", 7, []⟩ ⟨[], 0, 0, 0⟩ (.wv 3 4)
    (by decide)

/-- C8: evaluating the same address expression twice as a read yields two
distinct, independent read-port nodes — the read-port list grows by
exactly 2 and so does the netlist — and each materialization allocates a
fresh output signal of width `bitwidth`, the two outputs being
distinct. -/
theorem double_read_two_ports (mem : MemReadBase) (st : BuildState)
    (a : Wire)
    (ha : (as_wires a mem.addrwidth).width ≤ mem.addrwidth) :
    ∃ (n1 n2 : LogicNet) (d1 d2 : Wire) (mi1 mi2 : MemIndexed)
      (mem1 mem2 : MemReadBase) (st2 st4 : BuildState),
      MemReadBase.getitem mem st a = (.ok mi1, st) ∧
      MemIndexed.materialize mi1 st = (d1, mem1, st2) ∧
      MemReadBase.getitem mem1 st2 a = (.ok mi2, st2) ∧
      MemIndexed.materialize mi2 st2 = (d2, mem2, st4) ∧
      mem2.readport_nets = mem.readport_nets ++ [n1, n2] ∧
      st4.nets = st.nets ++ [n1, n2] ∧
      n1 ≠ n2 ∧ d1 ≠ d2 ∧
      d1.width = mem.bitwidth ∧ d2.width = mem.bitwidth := by
  have h1 : ¬ (as_wires a mem.addrwidth).width > mem.addrwidth := by omega
  refine ⟨⟨'m', mem.id, [as_wires a mem.addrwidth],
           [.wv st.nextWireId mem.bitwidth]⟩,
          ⟨'m', mem.id, [as_wires a mem.addrwidth],
           [.wv (st.nextWireId + 1) mem.bitwidth]⟩,
          .wv st.nextWireId mem.bitwidth,
          .wv (st.nextWireId + 1) mem.bitwidth,
          ⟨mem, as_wires a mem.addrwidth⟩,
          ⟨{ mem with readport_nets := mem.readport_nets
               ++ [⟨'m', mem.id, [as_wires a mem.addrwidth],
                    [.wv st.nextWireId mem.bitwidth]⟩] },
           as_wires a mem.addrwidth⟩,
          { mem with readport_nets := mem.readport_nets
              ++ [⟨'m', mem.id, [as_wires a mem.addrwidth],
                   [.wv st.nextWireId mem.bitwidth]⟩] },
          { mem with readport_nets := (mem.readport_nets
              ++ [⟨'m', mem.id, [as_wires a mem.addrwidth],
                   [.wv st.nextWireId mem.bitwidth]⟩])
              ++ [⟨'m', mem.id, [as_wires a mem.addrwidth],
                   [.wv (st.nextWireId + 1) mem.bitwidth]⟩] },
          { st with
              nets := st.nets
                ++ [⟨'m', mem.id, [as_wires a mem.addrwidth],
                     [.wv st.nextWireId mem.bitwidth]⟩]
              nextWireId := st.nextWireId + 1 },
          { st with
              nets := (st.nets
                ++ [⟨'m', mem.id, [as_wires a mem.addrwidth],
                     [.wv st.nextWireId mem.bitwidth]⟩])
                ++ [⟨'m', mem.id, [as_wires a mem.addrwidth],
                     [.wv (st.nextWireId + 1) mem.bitwidth]⟩]
              nextWireId := st.nextWireId + 1 + 1 },
          ?_, rfl, ?_, rfl, ?_, ?_, ?_, ?_, rfl, rfl⟩
  · simp only [MemReadBase.getitem]
    rw [if_neg h1]
  · simp only [MemReadBase.getitem]
    rw [if_neg h1]
  · simp
  · simp
  · intro h
    have := congrArg LogicNet.dests h
    simp only [List.cons.injEq, Wire.wv.injEq] at this
    omega
  · intro h
    simp only [Wire.wv.injEq] at h
    omega

/-- Witness for `double_read_two_ports`: a concrete 8×16 memory read twice
at the same width-4 address wire. -/
theorem double_read_two_ports_witness :
    ∃ (n1 n2 : LogicNet) (d1 d2 : Wire) (mi1 mi2 : MemIndexed)
      (mem1 mem2 : MemReadBase) (st2 st4 : BuildState),
      MemReadBase.getitem ⟨8, 4, "m", 7, []⟩ ⟨[], 0, 0, 0⟩ (.wv 3 4)
        = (.ok mi1, ⟨[], 0, 0, 0⟩) ∧
      MemIndexed.materialize mi1 ⟨[], 0, 0, 0⟩ = (d1, mem1, st2) ∧
      MemReadBase.getitem mem1 st2 (.wv 3 4) = (.ok mi2, st2) ∧
      MemIndexed.materialize mi2 st2 = (d2, mem2, st4) ∧
      mem2.readport_nets = [] ++ [n1, n2] ∧
      st4.nets = [] ++ [n1, n2] ∧
      n1 ≠ n2 ∧ d1 ≠ d2 ∧
      d1.width = 8 ∧ d2.width = 8 :=
  double_read_two_ports ⟨8, 4, "m", 7, []⟩ ⟨[], 0, 0, 0⟩ (.wv 3 4)
    (by decide)

/-- C9: cloning a memory — a RAM via `MemBlock._make_copy`, a read-only
table via `RomBlock._make_copy` — into a target netlist state yields a new
memory with identical bitwidth, address width and name, bound to the
target netlist (its id is allocated from the target state), with empty
read-port and write-port lists (a ROM structurally has no write-port
list at all). -/
theorem make_copy_identical (mem : MemBlock) (rom : RomBlock)
    (st st' : BuildState)
    (h1 : 1 ≤ mem.bitwidth) (h2 : 1 ≤ mem.addrwidth)
    (h3 : 1 ≤ rom.bitwidth) (h4 : 1 ≤ rom.addrwidth) :
    (∃ (m : MemBlock) (st2 : BuildState),
      MemBlock._make_copy mem st = (.ok m, st2) ∧
      m.bitwidth = mem.bitwidth ∧ m.addrwidth = mem.addrwidth ∧
      m.name = mem.name ∧ m.readport_nets = [] ∧ m.writeport_nets = [] ∧
      m.id = st.nextMemId) ∧
    (∃ (r : RomBlock) (st2 : BuildState),
      RomBlock._make_copy rom st' = (.ok r, st2) ∧
      r.bitwidth = rom.bitwidth ∧ r.addrwidth = rom.addrwidth ∧
      r.name = rom.name ∧ r.readport_nets = [] ∧
      r.id = st'.nextMemId) := by
  constructor
  · have hb : ¬ ((mem.bitwidth : Int) ≤ 0) := by omega
    have ha : ¬ ((mem.addrwidth : Int) ≤ 0) := by omega
    refine ⟨⟨⟨(mem.bitwidth : Int).toNat, (mem.addrwidth : Int).toNat,
              mem.name, st.nextMemId, []⟩, []⟩,
            { st with nextMemId := st.nextMemId + 1 }, ?_,
            by simp, by simp, rfl, rfl, rfl, rfl⟩
    simp only [MemBlock._make_copy, MemBlock.init, MemReadBase.init,
      next_tempvar_name, next_memid]
    rw [if_neg hb, if_neg ha]
  · have hb : ¬ ((rom.bitwidth : Int) ≤ 0) := by omega
    have ha : ¬ ((rom.addrwidth : Int) ≤ 0) := by omega
    refine ⟨⟨⟨(rom.bitwidth : Int).toNat, (rom.addrwidth : Int).toNat,
              rom.name, st'.nextMemId, []⟩, rom.data⟩,
            { st' with nextMemId := st'.nextMemId + 1 }, ?_,
            by simp, by simp, rfl, rfl, rfl⟩
    simp only [RomBlock._make_copy, RomBlock.init, MemReadBase.init,
      next_tempvar_name, next_memid]
    rw [if_neg hb, if_neg ha]

/-- Witness for `make_copy_identical`: concrete 8×16 memories with
non-empty port lists, cloned into a fresh state. -/
theorem make_copy_identical_witness :
    (∃ (m : MemBlock) (st2 : BuildState),
      MemBlock._make_copy
          ⟨⟨8, 4, "m", 7, [⟨'m', 7, [.wv 0 4], [.wv 1 8]⟩]⟩,
           [⟨'@', 7, [.wv 0 4, .wv 1 8, .const 1 1], []⟩]⟩
          ⟨[], 0, 5, 0⟩
        = (.ok m, st2) ∧
      m.bitwidth = 8 ∧ m.addrwidth = 4 ∧ m.name = "m" ∧
      m.readport_nets = [] ∧ m.writeport_nets = [] ∧ m.id = 5) ∧
    (∃ (r : RomBlock) (st2 : BuildState),
      RomBlock._make_copy
          ⟨⟨8, 4, "r", 9, [⟨'m', 9, [.wv 0 4], [.wv 1 8]⟩]⟩, .table [1, 2]⟩
          ⟨[], 0, 5, 0⟩
        = (.ok r, st2) ∧
      r.bitwidth = 8 ∧ r.addrwidth = 4 ∧ r.name = "r" ∧
      r.readport_nets = [] ∧ r.id = 5) :=
  make_copy_identical
    ⟨⟨8, 4, "m", 7, [⟨'m', 7, [.wv 0 4], [.wv 1 8]⟩]⟩,
     [⟨'@', 7, [.wv 0 4, .wv 1 8, .const 1 1], []⟩]⟩
    ⟨⟨8, 4, "r", 9, [⟨'m', 9, [.wv 0 4], [.wv 1 8]⟩]⟩, .table [1, 2]⟩
    ⟨[], 0, 5, 0⟩ ⟨[], 0, 5, 0⟩
    (by decide) (by decide) (by decide) (by decide)

end PyRTL
